import Mathlib

/-
Verification development for the VRM importer core
(io_scene_vrm/importer/vrm_load.py): container demuxing (parse_glb),
typed accessor decoding (decode_bin), the license gate (validate_license
and its URL checks), the legacy UV compatibility fix in mesh_read, and
the structural diff utility (vrm_dict_diff), embedded shallowly.

Numeric conventions: machine bytes are Nat values below 256; Python
floats are modelled as exact rationals (decimal literal parsing is exact
and the orderings at stake agree); fuel arguments are totality devices
for loops whose termination Python obtains from finiteness of the data,
and are always instantiated large enough that the fuel branch is
unreachable.
-/

namespace VrmLoad

/-- Little-endian interpretation of a byte list as a natural number. -/
def leNat : List Nat → Nat
  | [] => 0
  | b :: bs => b + 256 * leNat bs

/-- Little-endian 4-byte encoding of a 32-bit unsigned value. -/
def u32le (n : Nat) : List Nat :=
  [n % 256, n / 256 % 256, n / 256 ^ 2 % 256, n / 256 ^ 3 % 256]

/-- Modelled from the spec: the Chunk Reader (importer/binary_reader.py is
not under src). Positioned read of `n` bytes from an immutable buffer; any
read beyond the buffer end fails with an OutOfBounds error (spec 4.1). -/
def readBytes (data : List Nat) (pos n : Nat) : Except String (List Nat) :=
  if pos + n ≤ data.length then .ok ((data.drop pos).take n) else .error "OutOfBounds"

/-- Modelled from the spec: read_fixed_string text decoding (spec 4.1),
restricted to ASCII byte runs; a non-ASCII byte fails with a DecodeError.
All byte runs compared against the fixed tags of the format are ASCII. -/
def asciiDecode (bs : List Nat) : Except String String :=
  if bs.all (fun b => b < 128) then .ok (String.mk (bs.map Char.ofNat))
  else .error "DecodeError"

/-- Modelled from the spec: BinaryReader.read_str (spec 4.1). -/
def read_str (data : List Nat) (pos n : Nat) : Except String String :=
  match readBytes data pos n with
  | .error e => .error e
  | .ok bs => asciiDecode bs

/-- Modelled from the spec: BinaryReader.read_unsigned_int, a little-endian
u32 read (spec 4.1, 6). -/
def read_u32 (data : List Nat) (pos : Nat) : Except String Nat :=
  match readBytes data pos 4 with
  | .error e => .error e
  | .ok bs => .ok (leNat bs)

/-- Modelled from the spec: byte widths of the numeric component types of
the format (signed/unsigned 8/16/32-bit integers and 32-bit float, spec 4.1
and 3 DecodedArray; the GL enumeration values 5120-5126). -/
def componentWidth (t : Nat) : Option Nat :=
  if t = 5120 ∨ t = 5121 then some 1
  else if t = 5122 ∨ t = 5123 then some 2
  else if t = 5124 ∨ t = 5125 ∨ t = 5126 then some 4
  else none

/-- Modelled from the spec: BinaryReader.read_as_data_type (spec 4.1): reads
the byte width implied by the component type and returns a numeric value.
The value is kept as the raw little-endian integer: the claims under
verification depend only on the widths consumed and the element counts
produced, not on sign extension or float decoding. -/
def read_scalar (bin : List Nat) (compType pos : Nat) : Except String (Nat × Nat) :=
  match componentWidth compType with
  | none => .error "unknown componentType"
  | some w =>
    match readBytes bin pos w with
    | .error e => .error e
    | .ok bs => .ok (leNat bs, pos + w)

/-- A bufferView record as decode_bin consumes it (only byteOffset is read,
vrm_load.py line 332). -/
structure BufferView where
  byteOffset : Nat
deriving DecidableEq

/-- An accessor record as decode_bin consumes it. Fields the code accesses
unconditionally (type, count, componentType) are modelled as present; the
bufferView reference is optional and explicitly tested with `in`
(vrm_load.py line 326). -/
structure Accessor where
  type : String
  bufferView : Option Nat
  count : Nat
  componentType : Nat
deriving DecidableEq

/-- One decoded element of an accessor: a bare scalar (SCALAR accessors) or
a small ordered group of scalars (VEC2/VEC3/VEC4/MAT4 accessors), mirroring
the two shapes built in vrm_load.py lines 335-341. -/
inductive AccElem where
  | num (v : Nat)
  | vec (vs : List Nat)
deriving DecidableEq

/-- The arity table of decode_bin (vrm_load.py line 323); unknown type tags
raise a KeyError, modelled as none. -/
def type_num_dict (t : String) : Option Nat :=
  if t = "SCALAR" then some 1
  else if t = "VEC2" then some 2
  else if t = "VEC3" then some 3
  else if t = "VEC4" then some 4
  else if t = "MAT4" then some 16
  else none

/-- The inner loop of decode_bin for one multi-component element
(vrm_load.py lines 338-340): arity scalar reads in order. -/
def read_vec (bin : List Nat) (compType : Nat) : Nat → Nat → Except String (List Nat × Nat)
  | 0, pos => .ok ([], pos)
  | k + 1, pos =>
    match read_scalar bin compType pos with
    | .error e => .error e
    | .ok (v, p) =>
      match read_vec bin compType k p with
      | .error e => .error e
      | .ok (vs, p2) => .ok (v :: vs, p2)

/-- The per-accessor element loop of decode_bin (vrm_load.py lines
334-341): count elements, each one scalar (arity 1) or an arity-sized
group. -/
def read_elems (bin : List Nat) (compType typeNum : Nat) : Nat → Nat → Except String (List AccElem × Nat)
  | 0, pos => .ok ([], pos)
  | k + 1, pos =>
    if typeNum = 1 then
      match read_scalar bin compType pos with
      | .error e => .error e
      | .ok (v, p) =>
        match read_elems bin compType typeNum k p with
        | .error e => .error e
        | .ok (es, p2) => .ok (.num v :: es, p2)
    else
      match read_vec bin compType typeNum pos with
      | .error e => .error e
      | .ok (vs, p) =>
        match read_elems bin compType typeNum k p with
        | .error e => .error e
        | .ok (es, p2) => .ok (.vec vs :: es, p2)

/-- The body of decode_bin for one accessor (vrm_load.py lines 324-342):
arity lookup first (KeyError on unknown type tag), then the bufferView
test (missing bufferView yields an empty array without reading), then an
absolute seek to the bufferView's byteOffset and the element loop. `pos`
is the reader position the shared BinaryReader currently holds. -/
def decode_accessor (buffer_views : List BufferView) (binary : List Nat)
    (acc : Accessor) (pos : Nat) : Except String (List AccElem × Nat) :=
  match type_num_dict acc.type with
  | none => .error "KeyError: accessor type"
  | some tn =>
    match acc.bufferView with
    | none => .ok ([], pos)
    | some bvi =>
      match buffer_views.get? bvi with
      | none => .error "IndexError: bufferViews"
      | some bv => read_elems binary acc.componentType tn acc.count bv.byteOffset

/-- The accessor loop of decode_bin (vrm_load.py line 324), threading the
shared reader position and collecting decoded arrays in accessor order. -/
def decode_bin_go (buffer_views : List BufferView) (binary : List Nat) :
    List Accessor → Nat → Except String (List (List AccElem))
  | [], _ => .ok []
  | acc :: rest, pos =>
    match decode_accessor buffer_views binary acc pos with
    | .error e => .error e
    | .ok (d, p) =>
      match decode_bin_go buffer_views binary rest p with
      | .error e => .error e
      | .ok ds => .ok (d :: ds)

/-- decode_bin (vrm_load.py lines 317-344). The JSON document's
bufferViews and accessors arrays are passed directly (the Python code
reads exactly these two keys of json_data). -/
def decode_bin (buffer_views : List BufferView) (accessors : List Accessor)
    (binary : List Nat) : Except String (List (List AccElem)) :=
  decode_bin_go buffer_views binary accessors 0

/-- Flattened scalar count of one decoded element. -/
def elemFlatLen : AccElem → Nat
  | .num _ => 1
  | .vec vs => vs.length

/-- Flattened scalar count of a decoded accessor array. -/
def flatLen (l : List AccElem) : Nat := (l.map elemFlatLen).sum

/-- A default accessor used only to state getD-based indexing. -/
def defaultAccessor : Accessor := ⟨"", none, 0, 0⟩

/-- JSON values with order-preserving object pairs, as produced by
json.loads with object_pairs_hook=OrderedDict (vrm_load.py line 113).
Python ints and floats are separate leaf kinds; bools are a distinct kind
here, with the comparator below treating them as ints exactly where
Python's isinstance does. -/
inductive JValue where
  | null
  | jbool (b : Bool)
  | jint (n : Int)
  | jfloat (q : Rat)
  | str (s : String)
  | arr (l : List JValue)
  | obj (l : List (String × JValue))

/-- The chunk iteration of parse_glb (vrm_load.py lines 84-108): while the
remaining declared size is positive, fail if both chunk slots are already
filled, then read the u32 chunk size, the 4-byte chunk tag and the chunk
payload, store binary payloads and decoded JSON text in their slots, and
reject unknown tags. The fuel argument is a totality device; each
iteration consumes at least 8 of `size`, so fuel = size.toNat (what
parse_glb passes) always suffices and the fuel branch is unreachable. -/
def glb_chunks_loop (data : List Nat) : Nat → Nat → Int → Option String → Option (List Nat) →
    Except String (Option String × Option (List Nat))
  | 0, _, size, json_str, body =>
    if size ≤ 0 then .ok (json_str, body) else .error "chunk loop fuel exhausted"
  | fuel + 1, pos, size, json_str, body =>
    if size ≤ 0 then .ok (json_str, body)
    else if json_str.isSome && body.isSome then
      .error "This VRM has multiple chunks, this plugin reads one chunk only."
    else
      match read_u32 data pos with
      | .error e => .error e
      | .ok chunk_size =>
        match read_str data (pos + 4) 4 with
        | .error e => .error e
        | .ok chunk_type =>
          match readBytes data (pos + 8) chunk_size with
          | .error e => .error e
          | .ok chunk_data =>
            if chunk_type = "BIN\x00" then
              glb_chunks_loop data fuel (pos + 8 + chunk_size)
                (size - 4 - 4 - (chunk_size : Int)) json_str (some chunk_data)
            else if chunk_type = "JSON" then
              match asciiDecode chunk_data with
              | .error e => .error e
              | .ok s =>
                glb_chunks_loop data fuel (pos + 8 + chunk_size)
                  (size - 4 - 4 - (chunk_size : Int)) (some s) body
            else .error ("unknown chunk_type: " ++ chunk_type)

/-- Python truthiness of the optional binary chunk at the return of
parse_glb, `body if body else bytes()` (vrm_load.py line 116): None and
empty bytes both yield the empty payload. -/
def bodyOrEmpty : Option (List Nat) → List Nat
  | none => []
  | some b => if b.isEmpty then [] else b

/-- parse_glb (vrm_load.py lines 67-116) over the raw container bytes:
magic and version checks, declared-size bookkeeping, the chunk loop, the
mandatory-JSON check (`if not json_str`, line 110, which tests truthiness
of the decoded text, so a None slot and an empty string fail alike), JSON
decoding and the top-level-object check. The Python standard-library JSON
parser (json.loads) is the abstract parameter `jloads`; none models a
JSONDecodeError. -/
def parse_glb (jloads : String → Option JValue) (data : List Nat) :
    Except String (JValue × List Nat) :=
  match read_str data 0 4 with
  | .error e => .error e
  | .ok magic =>
    if magic ≠ "glTF" then .error ("glTF header signature not found: #" ++ magic)
    else
      match read_u32 data 4 with
      | .error e => .error e
      | .ok version =>
        if version ≠ 2 then .error "version found. This plugin only supports version 2"
        else
          match read_u32 data 8 with
          | .error e => .error e
          | .ok size0 =>
            match glb_chunks_loop data ((size0 : Int) - 12).toNat 12 ((size0 : Int) - 12) none none with
            | .error e => .error e
            | .ok (json_str, body) =>
              match json_str with
              | none => .error "failed to read json chunk"
              | some s =>
                if s = "" then .error "failed to read json chunk"
                else
                  match jloads s with
                  | none => .error "json decode error"
                  | some j =>
                    match j with
                    | .obj kvs => .ok (.obj kvs, bodyOrEmpty body)
                    | _ => .error "VRM has invalid json"

/-- ASCII byte encoding of a string (used for chunk tags and the magic). -/
def tagBytes (s : String) : List Nat := s.toList.map Char.toNat

/-- Serialized form of one chunk record: u32 little-endian payload length,
4-byte tag, then the payload (spec 6). -/
def chunkBytes (c : String × List Nat) : List Nat := u32le c.2.length ++ tagBytes c.1 ++ c.2

/-- Serialized form of a chunk record list. -/
def chunksBytes (cs : List (String × List Nat)) : List Nat := (cs.map chunkBytes).flatten

/-- Total byte size of a chunk record list (8 bytes of framing plus the
payload, per chunk). -/
def chunksSize (cs : List (String × List Nat)) : Nat := (cs.map (fun c => 8 + c.2.length)).sum

/-- A container byte stream with the fixed magic, version 2, a correct
total declared length, and the given chunk records in order (spec 6). -/
def mkGlb (cs : List (String × List Nat)) : List Nat :=
  tagBytes "glTF" ++ u32le 2 ++ u32le (12 + chunksSize cs) ++ chunksBytes cs

/-- Reference semantics of the chunk iteration over a chunk record list
(proof device mirroring glb_chunks_loop chunk by chunk). -/
def processChunks : List (String × List Nat) → Option String → Option (List Nat) →
    Except String (Option String × Option (List Nat))
  | [], js, body => .ok (js, body)
  | (tag, payload) :: rest, js, body =>
    if js.isSome && body.isSome then
      .error "This VRM has multiple chunks, this plugin reads one chunk only."
    else if tag = "BIN\x00" then processChunks rest js (some payload)
    else if tag = "JSON" then
      match asciiDecode payload with
      | .error e => .error e
      | .ok s => processChunks rest (some s) body
    else .error ("unknown chunk_type: " ++ tag)

/-- The post-loop stage of parse_glb (proof device, identical to the tail
of parse_glb). -/
def glbFinish (jloads : String → Option JValue) (js : Option String)
    (body : Option (List Nat)) : Except String (JValue × List Nat) :=
  match js with
  | none => .error "failed to read json chunk"
  | some s =>
    if s = "" then .error "failed to read json chunk"
    else
      match jloads s with
      | none => .error "json decode error"
      | some j =>
        match j with
        | .obj kvs => .ok (.obj kvs, bodyOrEmpty body)
        | _ => .error "VRM has invalid json"

/-- A chunk tag that serializes to 4 ASCII bytes. -/
def tagOk (s : String) : Prop := s.length = 4 ∧ ∀ c ∈ s.toList, c.toNat < 128

/-- A concrete stand-in for json.loads in closed counterexamples: it
decodes the empty JSON object, agreeing with Python there. -/
def jloadsStub (s : String) : Option JValue :=
  if s = "\x7b\x7d" then some (.obj []) else none

/-- Modelled from the spec: nested_json_value_getter (vrm_types.py, not
under src): walk a key path through the JSON tree, returning the default
when any segment is absent or of the wrong kind, never raising (spec 9).
Only string keys are exercised by the checks under verification. -/
def json_get : JValue → List String → JValue → JValue
  | j, [], _ => j
  | j, k :: rest, dflt =>
    match j with
    | .obj kvs =>
      match List.lookup k kvs with
      | some v => json_get v rest dflt
      | none => dflt
    | _ => dflt

/-- Python str() as applied to json_get results: identity on string
leaves; other leaves get a rendering (only string fields are exercised by
the claims, so the non-string renderings are schematic). -/
def pyStr : JValue → String
  | .str s => s
  | .null => "None"
  | .jbool b => if b then "True" else "False"
  | .jint n => toString n
  | .jfloat q => toString q
  | .arr _ => "[...]"
  | .obj _ => "\x7b...\x7d"

/-- Whether pat is a leading run of l, character by character. -/
def startsList : List Char → List Char → Bool
  | [], _ => true
  | _ :: _, [] => false
  | p :: ps, c :: cs => p == c && startsList ps cs

/-- Whether pat is a trailing run of l. -/
def endsList (pat l : List Char) : Bool :=
  l.drop (l.length - pat.length) == pat

/-- Whether pat occurs as a contiguous run inside l. -/
def hasInfix (pat : List Char) : List Char → Bool
  | [] => pat.isEmpty
  | c :: rest => startsList pat (c :: rest) || hasInfix pat rest

/-- The anchored regex match re.match("CC(.\x2a)ND(.\x2a)", name) of
validate_license (vrm_load.py line 221), translated: the name must start
with the literal "CC" (case-sensitively: no IGNORECASE flag is passed)
and "ND" must occur later, with the dot of the pattern not crossing a
newline. -/
def ccnd_match (name : String) : Bool :=
  startsList "CC".toList name.toList &&
    hasInfix "ND".toList ((name.toList.drop 2).takeWhile (fun c => c ≠ '\n'))

/-- LicenseConfirmationRequiredProp (vrm_load.py lines 27-44): optional
url, optional json key, and both message texts (vrm_helper.lang_support is
not under src; modelled from the spec as retaining the bilingual pair). -/
structure LCProp where
  url : Option String
  json_key : Option String
  message_en : String
  message_ja : String
deriving DecidableEq

/-- The pieces of urllib.parse.urlparse that the license checks consult. -/
structure UrlParts where
  original : String
  scheme : String
  netloc : String
  path : String
  query : String
  fragment : String
deriving DecidableEq

/-- Python ParseResult.hostname, simplified: the lowercased netloc, or
none when the netloc is empty (userinfo/port stripping is not exercised
by the URLs at stake). Modelled from the spec. -/
def UrlParts.hostname (u : UrlParts) : Option String :=
  if u.netloc = "" then none else some (String.mk (u.netloc.toList.map Char.toLower))

/-- ParseResult.geturl reconstructs the parsed URL; for the URLs at stake
it returns the original string. Modelled from the spec. -/
def UrlParts.geturl (u : UrlParts) : String := u.original

/-- Split a character list at the first occurrence of sep. -/
def breakOn (sep : List Char) : List Char → Option (List Char × List Char)
  | [] => if sep.isEmpty then some ([], []) else none
  | c :: rest =>
    if startsList sep (c :: rest) then some ([], (c :: rest).drop sep.length)
    else
      match breakOn sep rest with
      | none => none
      | some (pre, post) => some (c :: pre, post)

/-- Split a string at the first occurrence of sep, as Python
s.split(sep, 1). -/
def splitFirstStr (s sep : String) : String × Option String :=
  match breakOn sep.toList s.toList with
  | none => (s, none)
  | some (pre, post) => (String.mk pre, some (String.mk post))

/-- Modelled from the spec: urllib.parse.urlparse restricted to the
scheme://netloc/path?query#fragment shape the license gate inspects;
ValueError (which the caller suppresses into a missing URL) cannot arise
in this restricted grammar, so the result is always some. -/
def urlparse_model (s : String) : Option UrlParts :=
  let bf := splitFirstStr s "#"
  let bq := splitFirstStr bf.1 "?"
  match splitFirstStr bq.1 "://" with
  | (_, none) => some ⟨s, "", "", bq.1, (bq.2).getD "", (bf.2).getD ""⟩
  | (scheme, some after) =>
    let netlocChars := after.toList.takeWhile (fun c => c ≠ '/')
    some ⟨s, scheme, String.mk netlocChars, String.mk (after.toList.drop netlocChars.length),
      (bq.2).getD "", (bf.2).getD ""⟩

/-- Split a character list on every occurrence of a separator char. -/
def splitChar (c : Char) : List Char → List (List Char)
  | [] => [[]]
  | x :: xs =>
    if x == c then [] :: splitChar c xs
    else
      match splitChar c xs with
      | [] => [[x]]
      | y :: ys => (x :: y) :: ys

/-- Modelled from the spec: urllib.parse.parse_qsl with default options:
split the query on the ampersand, keep key=value pieces with a non-empty
value (keep_blank_values defaults to False), percent-decoding not
exercised. -/
def parse_qsl_model (q : String) : List (String × String) :=
  (splitChar (Char.ofNat 38) q.toList).filterMap (fun kv =>
    match breakOn "=".toList kv with
    | none => none
    | some (k, v) => if v.isEmpty then none else some (String.mk k, String.mk v))

/-- dict(...) over parse_qsl pairs followed by .get: later duplicate keys
win, as in Python dict construction. -/
def qdict_get (pairs : List (String × String)) (k : String) : Option String :=
  List.lookup k pairs.reverse

/-- The VRoid Hub confirmation item (vrm_load.py lines 181-188). -/
def vroid_prop (u : UrlParts) (json_key : String) : LCProp :=
  ⟨some u.geturl, some json_key,
    "This VRM is licensed by VRoid Hub License \"Alterations: No\".",
    "このVRMにはVRoid Hubの「改変: NG」ライセンスが設定されています。"⟩

/-- The UV License confirmation item (vrm_load.py lines 202-209). -/
def uni_virtual_prop (u : UrlParts) (json_key : String) : LCProp :=
  ⟨some u.geturl, some json_key,
    "This VRM is licensed by UV License with \"Remarks\".",
    "このVRMには特記事項(Remarks)付きのUVライセンスが設定されています。"⟩

/-- The generic custom-license confirmation item (vrm_load.py lines
161-168). -/
def generic_license_prop (url_str json_key : String) : LCProp :=
  ⟨some url_str, some json_key,
    "Is this VRM allowed to edited? Please check its copyright license.",
    "独自のライセンスが記載されています。"⟩

/-- validate_vroid_hub_license_url (vrm_load.py lines 171-189): reject
the provider match unless the hostname is hub.vroid.com and the path ends
with /license; on a match, append an item exactly when the modification
query parameter is "disallow", and report the provider as handled either
way. The mutable props list becomes explicit state. -/
def validate_vroid_hub_license_url (url : UrlParts) (query_dict : List (String × String))
    (json_key : String) (props : List LCProp) : Bool × List LCProp :=
  if url.hostname ≠ some "hub.vroid.com" ∨ endsList "/license".toList url.path.toList = false then
    (false, props)
  else if qdict_get query_dict "modification" = some "disallow" then
    (true, props ++ [vroid_prop url json_key])
  else (true, props)

/-- validate_uni_virtual_license_url (vrm_load.py lines 192-210). -/
def validate_uni_virtual_license_url (url : UrlParts) (query_dict : List (String × String))
    (json_key : String) (props : List LCProp) : Bool × List LCProp :=
  if url.hostname ≠ some "uv-license.com" ∨ endsList "/license".toList url.path.toList = false then
    (false, props)
  else if qdict_get query_dict "remarks" = some "true" then
    (true, props ++ [uni_virtual_prop url json_key])
  else (true, props)

/-- validate_license_url (vrm_load.py lines 147-168): empty URLs are
ignored; a parsed URL is offered to the two providers in order with
short-circuiting; if neither claims it (or parsing failed) the generic
custom-license item is appended. -/
def validate_license_url (url_str json_key : String) (props : List LCProp) : List LCProp :=
  if url_str = "" then props
  else
    match urlparse_model url_str with
    | none => props ++ [generic_license_prop url_str json_key]
    | some url =>
      let query_dict := parse_qsl_model url.query
      match validate_vroid_hub_license_url url query_dict json_key props with
      | (true, props2) => props2
      | (false, props2) =>
        match validate_uni_virtual_license_url url query_dict json_key props2 with
        | (true, props3) => props3
        | (false, props3) => props3 ++ [generic_license_prop url_str json_key]

/-- The no-derivatives item of validate_license (vrm_load.py lines
222-229). The English message carries the braces literally: the source
string is not an f-string; the Japanese one interpolates the name. -/
def ccnd_prop (license_name : String) : LCProp :=
  ⟨none, none,
    "The VRM is licensed by \"\x7blicense_name\x7d\".\nNo derivative works are allowed.",
    "指定されたVRMは改変不可ライセンス「" ++ license_name ++ "」が設定されています。\n改変することはできません。"⟩

/-- The license-name check of validate_license (vrm_load.py lines
218-229). -/
def license_name_check (license_name : String) : List LCProp :=
  if ccnd_match license_name then [ccnd_prop license_name] else []

/-- The missing-URL item of the "Other" license check (vrm_load.py lines
248-255). -/
def other_license_missing_url_prop : LCProp :=
  ⟨none, none,
    "The VRM selects \"Other\" license but no license url is found.",
    "このVRMには「Other」ライセンスが指定されていますが、URLが設定されていません。"⟩

/-- The confirmation list validate_license accumulates across its three
checks, in order: license-name check, otherPermissionUrl check, and the
"Other" license check (vrm_load.py lines 213-259). -/
def validate_license_props (json : JValue) : List LCProp :=
  let license_name := pyStr (json_get json ["extensions", "VRM", "meta", "licenseName"] (.str ""))
  let c1 := license_name_check license_name
  let c2 := validate_license_url
    (pyStr (json_get json ["extensions", "VRM", "meta", "otherPermissionUrl"] (.str "")))
    "otherPermissionUrl" c1
  if license_name = "Other" then
    let other_license_url_str :=
      pyStr (json_get json ["extensions", "VRM", "meta", "otherLicenseUrl"] (.str ""))
    if other_license_url_str = "" then c2 ++ [other_license_missing_url_prop]
    else validate_license_url other_license_url_str "otherLicenseUrl" c2
  else c2

/-- validate_license (vrm_load.py lines 213-262): after all three checks
have run, raise the LicenseConfirmationRequired condition (the error
branch, carrying the whole aggregated list) exactly when the list is
non-empty, and return normally otherwise. -/
def validate_license (json : JValue) : Except (List LCProp) Unit :=
  match validate_license_props json with
  | [] => .ok ()
  | props => .error props

/-- A document carrying the three license metadata fields at their
nested path. -/
def metaDoc (licenseName otherPermissionUrl otherLicenseUrl : String) : JValue :=
  .obj [("extensions", .obj [("VRM", .obj [("meta", .obj
    [("licenseName", .str licenseName),
     ("otherPermissionUrl", .str otherPermissionUrl),
     ("otherLicenseUrl", .str otherLicenseUrl)])])])]

/-- Decimal value of a digit run. -/
def digitsVal (cs : List Char) : Nat :=
  cs.foldl (fun acc c => 10 * acc + (c.toNat - 48)) 0

/-- Python s[-4:]: the last four characters (the whole string when it is
shorter). -/
def lastChars (n : Nat) (s : String) : String :=
  String.mk (s.toList.drop (s.toList.length - n))

/-- Modelled from the spec: the Python float() constructor restricted to
plain decimal literals (optional sign, integer part, optional fractional
part; exponent forms, infinities and surrounding whitespace are not
exercised by the generator tags at stake). The exact value is returned as
an integer numerator over a power-of-ten denominator, kept unreduced so
that the comparison in legacy_uv_flag is kernel-decidable. -/
def pyFloat? (s : String) : Option (Int × Nat) :=
  let sc : Int × List Char :=
    match s.toList with
    | '-' :: rest => (-1, rest)
    | '+' :: rest => (1, rest)
    | cs => (1, cs)
  let ip := sc.2.takeWhile Char.isDigit
  match sc.2.dropWhile Char.isDigit with
  | [] => if ip.isEmpty then none else some (sc.1 * (digitsVal ip : Int), 1)
  | '.' :: rest =>
    let fp := rest.takeWhile Char.isDigit
    if (rest.dropWhile Char.isDigit).isEmpty && !(ip.isEmpty && fp.isEmpty) then
      some (sc.1 * ((digitsVal ip * 10 ^ fp.length + digitsVal fp : Nat) : Int), 10 ^ fp.length)
    else none
  | _ => none

/-- The legacy-generator test of mesh_read (vrm_load.py lines 379-384):
the generator tag must match UniGLTF at its start, and the float value of
its last four characters must be below 1.16; a ValueError from float() is
suppressed, leaving the flag off. The float comparison
float(gen[-4:]) < 1.16 is exact for these decimal literals and is taken
in cross-multiplied integer form. -/
def legacy_uv_flag (gen : String) : Bool :=
  if startsList "UniGLTF".toList gen.toList then
    match pyFloat? (lastChars 4 gen) with
    | some (num, den) => decide (100 * num < 116 * (den : Int))
    | none => false
  else false

/-- The in-place uv[1] = 1 + uv[1] rewrite of one UV (vrm_load.py line
393); a UV with fewer than two components would raise an IndexError,
modelled as none. UV components are exact rationals standing for the
decoded floats. -/
def fix_uv (uv : List Rat) : Option (List Rat) :=
  match uv with
  | u :: v :: rest => some (u :: (1 + v) :: rest)
  | _ => none

/-- The attribute name "TEXCOORD_\x7b_\x7d".format(uv_count). -/
def texcoordName (n : Nat) : String := "TEXCOORD_" ++ toString n

/-- Reassignment of a named attribute of the primitive (the in-place list
mutation as seen through the attribute mapping). -/
def setAttr (attrs : List (String × List (List Rat))) (k : String) (v : List (List Rat)) :
    List (String × List (List Rat)) :=
  attrs.map (fun p => if p.1 = k then (k, v) else p)

/-- The TEXCOORD loop of mesh_read (vrm_load.py lines 386-396): walk
TEXCOORD_0, TEXCOORD_1, ... while such an attribute exists on the
primitive, rewriting every UV of each when the legacy flag is set, and
exit at the first missing index. The fuel is a totality device (Python
terminates because the attribute set is finite); mesh_texcoord_fix passes
attrs.length + 1, which distinctness of the names makes sufficient. -/
def texfix_loop (legacy : Bool) : Nat → List (String × List (List Rat)) → Nat →
    Option (List (String × List (List Rat)))
  | 0, attrs, _ => some attrs
  | fuel + 1, attrs, n =>
    match List.lookup (texcoordName n) attrs with
    | none => some attrs
    | some texcoord =>
      if legacy then
        match texcoord.mapM fix_uv with
        | none => none
        | some texcoord2 =>
          texfix_loop legacy fuel (setAttr attrs (texcoordName n) texcoord2) (n + 1)
      else texfix_loop legacy fuel attrs (n + 1)

/-- The UV-fix slice of mesh_read (vrm_load.py lines 378-398) for one
primitive: the legacy flag computed from the document's generator tag,
then the TEXCOORD loop over the primitive's attribute mapping (spec 4.4;
the reflective attribute storage of vrm_types.Mesh, not under src, is
modelled from the spec as a name-to-array mapping). -/
def mesh_texcoord_fix (json : JValue) (attrs : List (String × List (List Rat))) :
    Option (List (String × List (List Rat))) :=
  let gen := pyStr (json_get json ["assets", "generator"] (.str ""))
  texfix_loop (legacy_uv_flag gen) (attrs.length + 1) attrs 0

/-- A document carrying only the generator tag at its path. -/
def genDoc (gen : String) : JValue :=
  .obj [("assets", .obj [("generator", .str gen)])]

/-- Python type(x) rendering used in the diff messages. -/
def pyTypeName : JValue → String
  | .null => "<class \x27NoneType\x27>"
  | .jbool _ => "<class \x27bool\x27>"
  | .jint _ => "<class \x27int\x27>"
  | .jfloat _ => "<class \x27float\x27>"
  | .str _ => "<class \x27str\x27>"
  | .arr _ => "<class \x27list\x27>"
  | .obj _ => "<class \x27dict\x27>"

/-- Python isinstance(x, int): true for ints and for bools, which are an
int subclass in Python. -/
def pyIsInt : JValue → Bool
  | .jint _ => true
  | .jbool _ => true
  | _ => false

/-- Python isinstance(x, (int, float)). -/
def pyIsNum : JValue → Bool
  | .jint _ => true
  | .jbool _ => true
  | .jfloat _ => true
  | _ => false

/-- Integer value of an int-like Python value (True is 1, False is 0). -/
def pyIntVal : JValue → Int
  | .jint n => n
  | .jbool b => if b then 1 else 0
  | _ => 0

/-- float(x) of a numeric Python value, as an exact rational. -/
def pyNumVal : JValue → Rat
  | .jint n => (n : Rat)
  | .jbool b => if b then 1 else 0
  | .jfloat q => q
  | _ => 0

/-- Shape testers used to state the leaf-dispatch facts. -/
def isArr : JValue → Bool
  | .arr _ => true
  | _ => false

def isObj : JValue → Bool
  | .obj _ => true
  | _ => false

def isBool : JValue → Bool
  | .jbool _ => true
  | _ => false

def isStr : JValue → Bool
  | .str _ => true
  | _ => false

def isNull : JValue → Bool
  | .null => true
  | _ => false

/-- Python sorted(set(left keys) + (right keys)) of the dict comparison
(vrm_load.py line 500): the deduplicated key union in ascending order. -/
def sortedKeys (l r : List (String × JValue)) : List String :=
  List.insertionSort (fun a b => a ≤ b) ((l.map Prod.fst ++ r.map Prod.fst).dedup)

/-- vrm_dict_diff (vrm_load.py lines 479-544): the deep structural
comparator. Dispatch follows the left value: lists recurse elementwise
after a length check; dicts recurse over the sorted key union, reporting
keys missing on either side; bools, strings and a left None against a
non-None right yield one reportable entry on type mismatch; numeric pairs
(bools counting as ints) compare exactly for int-int and within the
float tolerance otherwise; every remaining combination raises the fatal
unexpected-type exception. The fuel argument is a totality device for the
structural recursion and is unreachable for any fuel exceeding the
nesting depth; fixed-width float formatting in messages is abbreviated to
the exact value's rendering. -/
def vrm_dict_diff : Nat → JValue → JValue → String → Rat → Except String (List String)
  | 0, _, _, _, _ => .error "recursion fuel exhausted"
  | fuel + 1, left, right, path, float_tolerance =>
    match left with
    | .arr ls =>
      match right with
      | .arr rs =>
        if ls.length ≠ rs.length then
          .ok [path ++ ": left length is " ++ toString ls.length ++
            " but right length is " ++ toString rs.length]
        else
          match (ls.zip rs).enum.mapM (fun p =>
              vrm_dict_diff fuel p.2.1 p.2.2 (path ++ "[" ++ toString p.1 ++ "]") float_tolerance) with
          | .error e => .error e
          | .ok ds => .ok ds.flatten
      | _ => .ok [path ++ ": left is list but right is " ++ pyTypeName right]
    | .obj lkv =>
      match right with
      | .obj rkv =>
        match (sortedKeys lkv rkv).mapM (fun key =>
            if (List.lookup key lkv).isNone then .ok [path ++ ": " ++ key ++ " not in left"]
            else if (List.lookup key rkv).isNone then .ok [path ++ ": " ++ key ++ " not in right"]
            else vrm_dict_diff fuel ((List.lookup key lkv).getD .null)
              ((List.lookup key rkv).getD .null)
              (path ++ "[\"" ++ key ++ "\"]") float_tolerance) with
        | .error e => .error e
        | .ok ds => .ok ds.flatten
      | _ => .ok [path ++ ": left is dict but right is " ++ pyTypeName right]
    | .jbool lb =>
      match right with
      | .jbool rb =>
        if lb ≠ rb then
          .ok [path ++ ": left is " ++ pyStr (.jbool lb) ++ " but right is " ++ pyStr (.jbool rb)]
        else .ok []
      | _ => .ok [path ++ ": left is bool but right is " ++ pyTypeName right]
    | .str lstr =>
      match right with
      | .str rstr =>
        if lstr ≠ rstr then
          .ok [path ++ ": left is \"" ++ lstr ++ "\" but right is \"" ++ rstr ++ "\""]
        else .ok []
      | _ => .ok [path ++ ": left is str but right is " ++ pyTypeName right]
    | .null =>
      match right with
      | .null =>
        .error (path ++ ": unexpected type left=" ++ pyTypeName .null ++
          " right=" ++ pyTypeName .null)
      | _ => .ok [path ++ ": left is None but right is " ++ pyTypeName right]
    | .jint ln =>
      if pyIsInt right then
        if (ln : Int) ≠ pyIntVal right then
          .ok [path ++ ": left is " ++ pyStr (.jint ln) ++ " but right is " ++ pyStr right]
        else .ok []
      else if pyIsNum right then
        if |pyNumVal (.jint ln) - pyNumVal right| > float_tolerance then
          .ok [path ++ ": left is " ++ pyStr (.jint ln) ++ " but right is " ++ pyStr right ++
            ", error exceeds tolerance"]
        else .ok []
      else
        .error (path ++ ": unexpected type left=" ++ pyTypeName (.jint ln) ++
          " right=" ++ pyTypeName right)
    | .jfloat lq =>
      if pyIsNum right then
        if |lq - pyNumVal right| > float_tolerance then
          .ok [path ++ ": left is " ++ pyStr (.jfloat lq) ++ " but right is " ++ pyStr right ++
            ", error exceeds tolerance"]
        else .ok []
      else
        .error (path ++ ": unexpected type left=" ++ pyTypeName (.jfloat lq) ++
          " right=" ++ pyTypeName right)

end VrmLoad

namespace VrmLoad

theorem read_vec_length (bin : List Nat) (ct : Nat) :
    ∀ k pos vs p, read_vec bin ct k pos = .ok (vs, p) → vs.length = k := by
  intro k
  induction k with
  | zero =>
    intro pos vs p h
    simp [read_vec] at h
    simp [h.1]
  | succ n ih =>
    intro pos vs p h
    simp only [read_vec] at h
    cases h1 : read_scalar bin ct pos with
    | error e => rw [h1] at h; simp at h
    | ok vp =>
      obtain ⟨v, p1⟩ := vp
      rw [h1] at h
      dsimp only at h
      cases h2 : read_vec bin ct n p1 with
      | error e => rw [h2] at h; simp at h
      | ok vsp =>
        obtain ⟨vs1, p2⟩ := vsp
        rw [h2] at h
        simp at h
        have := ih p1 vs1 p2 h2
        rw [← h.1]
        simp [this]

theorem read_elems_flatLen (bin : List Nat) (ct tn : Nat) :
    ∀ k pos es p, read_elems bin ct tn k pos = .ok (es, p) → flatLen es = k * tn := by
  intro k
  induction k with
  | zero =>
    intro pos es p h
    simp [read_elems] at h
    simp [h.1, flatLen]
  | succ n ih =>
    intro pos es p h
    simp only [read_elems] at h
    by_cases htn : tn = 1
    · rw [if_pos htn] at h
      cases h1 : read_scalar bin ct pos with
      | error e => rw [h1] at h; simp at h
      | ok vp =>
        obtain ⟨v, p1⟩ := vp
        rw [h1] at h
        dsimp only at h
        cases h2 : read_elems bin ct tn n p1 with
        | error e => rw [h2] at h; simp at h
        | ok esp =>
          obtain ⟨es1, p2⟩ := esp
          rw [h2] at h
          simp at h
          have := ih p1 es1 p2 h2
          rw [← h.1]
          simp [flatLen, elemFlatLen] at this ⊢
          rw [this, htn]
          ring
    · rw [if_neg htn] at h
      cases h1 : read_vec bin ct tn pos with
      | error e => rw [h1] at h; simp at h
      | ok vp =>
        obtain ⟨vs1, p1⟩ := vp
        rw [h1] at h
        dsimp only at h
        cases h2 : read_elems bin ct tn n p1 with
        | error e => rw [h2] at h; simp at h
        | ok esp =>
          obtain ⟨es1, p2⟩ := esp
          rw [h2] at h
          simp at h
          have hlen := read_vec_length bin ct tn pos vs1 p1 h1
          have := ih p1 es1 p2 h2
          rw [← h.1]
          simp [flatLen, elemFlatLen] at this ⊢
          rw [this, hlen]
          ring

theorem decode_accessor_count (bvs : List BufferView) (bin : List Nat)
    (acc : Accessor) (pos : Nat) (d : List AccElem) (p tn bvi : Nat)
    (h : decode_accessor bvs bin acc pos = .ok (d, p))
    (ht : type_num_dict acc.type = some tn)
    (hb : acc.bufferView = some bvi) :
    flatLen d = acc.count * tn := by
  unfold decode_accessor at h
  rw [ht, hb] at h
  dsimp only at h
  cases h2 : bvs.get? bvi with
  | none => rw [h2] at h; simp at h
  | some bv =>
    rw [h2] at h
    dsimp only at h
    exact read_elems_flatLen bin acc.componentType tn acc.count bv.byteOffset d p h

theorem decode_accessor_pos_indep (bvs : List BufferView) (bin : List Nat)
    (acc : Accessor) (pos : Nat) (d : List AccElem) (p : Nat)
    (h : decode_accessor bvs bin acc pos = .ok (d, p)) :
    ∃ p2, decode_accessor bvs bin acc 0 = .ok (d, p2) := by
  unfold decode_accessor at h ⊢
  cases ht : type_num_dict acc.type with
  | none => rw [ht] at h; simp at h
  | some tn =>
    rw [ht] at h
    cases hb : acc.bufferView with
    | none =>
      rw [hb] at h
      simp at h
      exact ⟨0, by simp [h.1]⟩
    | some bvi =>
      rw [hb] at h
      exact ⟨p, h⟩

theorem decode_bin_go_spec (bvs : List BufferView) (bin : List Nat) :
    ∀ (accs : List Accessor) (pos : Nat) (out : List (List AccElem)),
    decode_bin_go bvs bin accs pos = .ok out →
    out.length = accs.length ∧
    ∀ i, i < accs.length →
      ∃ p, decode_accessor bvs bin (accs.getD i defaultAccessor) 0 = .ok (out.getD i [], p) := by
  intro accs
  induction accs with
  | nil =>
    intro pos out h
    simp [decode_bin_go] at h
    simp [← h]
  | cons a rest ih =>
    intro pos out h
    simp only [decode_bin_go] at h
    cases h1 : decode_accessor bvs bin a pos with
    | error e => rw [h1] at h; simp at h
    | ok dp =>
      obtain ⟨d, p1⟩ := dp
      rw [h1] at h
      dsimp only at h
      cases h2 : decode_bin_go bvs bin rest p1 with
      | error e => rw [h2] at h; simp at h
      | ok ds =>
        rw [h2] at h
        simp at h
        obtain ⟨hlen, hidx⟩ := ih p1 ds h2
        constructor
        · rw [← h]; simp [hlen]
        · intro i hi
          rw [← h]
          match i with
          | 0 =>
            simp [List.getD]
            exact decode_accessor_pos_indep bvs bin a pos d p1 h1
          | Nat.succ j =>
            simp only [List.getD, List.get?] at hidx ⊢
            have hj : j < rest.length := by
              simp at hi
              omega
            exact hidx j hj

/-- C1: for every bufferViews/accessors pair and every binary payload on
which decode_bin succeeds, the result has exactly one entry per accessor,
the entry at position i is the decode of accessor i itself (independently
of any other accessor), and for every accessor carrying a bufferView
reference the flattened element count of entry i equals the accessor's
declared count times the arity of its type tag (SCALAR=1, VEC2=2, VEC3=3,
VEC4=4, MAT4=16). -/
theorem decode_bin_indexed (bvs : List BufferView) (accs : List Accessor)
    (bin : List Nat) (out : List (List AccElem))
    (h : decode_bin bvs accs bin = .ok out) :
    out.length = accs.length ∧
    (∀ i, i < accs.length →
      ∃ p, decode_accessor bvs bin (accs.getD i defaultAccessor) 0 = .ok (out.getD i [], p)) ∧
    (∀ i tn bvi, i < accs.length →
      (accs.getD i defaultAccessor).bufferView = some bvi →
      type_num_dict (accs.getD i defaultAccessor).type = some tn →
      flatLen (out.getD i []) = (accs.getD i defaultAccessor).count * tn) := by
  obtain ⟨hlen, hidx⟩ := decode_bin_go_spec bvs bin accs 0 out h
  refine ⟨hlen, hidx, ?_⟩
  intro i tn bvi hi hb ht
  obtain ⟨p, hp⟩ := hidx i hi
  exact decode_accessor_count bvs bin (accs.getD i defaultAccessor) 0 (out.getD i []) p tn bvi hp ht hb

/-- Witness for C1 at a concrete input: one VEC3 float accessor of count 2
over a 24-byte payload decodes with flattened element count 2 * 3. -/
theorem decode_bin_indexed_witness :
    decode_bin [⟨0⟩] [⟨"VEC3", some 0, 2, 5126⟩] (List.replicate 24 0) =
      .ok [[AccElem.vec [0, 0, 0], AccElem.vec [0, 0, 0]]] ∧
    flatLen (([[AccElem.vec [0, 0, 0], AccElem.vec [0, 0, 0]]] : List (List AccElem)).getD 0 []) = 2 * 3 := by
  have h : decode_bin [⟨0⟩] [⟨"VEC3", some 0, 2, 5126⟩] (List.replicate 24 0) =
      .ok [[AccElem.vec [0, 0, 0], AccElem.vec [0, 0, 0]]] := by rfl
  exact ⟨h, (decode_bin_indexed [⟨0⟩] [⟨"VEC3", some 0, 2, 5126⟩] (List.replicate 24 0)
    [[AccElem.vec [0, 0, 0], AccElem.vec [0, 0, 0]]] h).2.2 0 3 0
    (by decide) (by rfl) (by rfl)⟩

/-- C9: an accessor without a bufferView reference (whose type tag is in
the arity table, which decode_bin consults first) decodes to an empty
array without raising, and the loop continues with the remaining
accessors; in any successful run the entry at such an accessor's index is
the empty array. -/
theorem decode_bin_missing_bufferView (bvs : List BufferView) (bin : List Nat) :
    (∀ (acc : Accessor) (rest : List Accessor) (pos tn : Nat),
      acc.bufferView = none → type_num_dict acc.type = some tn →
      decode_bin_go bvs bin (acc :: rest) pos =
        (decode_bin_go bvs bin rest pos).map (fun ds => [] :: ds)) ∧
    (∀ (accs : List Accessor) (out : List (List AccElem)) (i : Nat),
      decode_bin bvs accs bin = .ok out → i < accs.length →
      (accs.getD i defaultAccessor).bufferView = none → out.getD i [] = []) := by
  constructor
  · intro acc rest pos tn hb ht
    simp only [decode_bin_go, decode_accessor, ht, hb]
    cases h2 : decode_bin_go bvs bin rest pos with
    | error e => simp [Except.map]
    | ok ds => simp [Except.map]
  · intro accs out i h hi hb
    obtain ⟨hlen, hidx⟩ := decode_bin_go_spec bvs bin accs 0 out h
    obtain ⟨p, hp⟩ := hidx i hi
    unfold decode_accessor at hp
    cases ht : type_num_dict (accs.getD i defaultAccessor).type with
    | none => rw [ht] at hp; simp at hp
    | some tn =>
      rw [ht, hb] at hp
      simp at hp
      simpa [List.getD] using hp.1.symm

theorem leNat_u32le (n : Nat) (h : n < 2 ^ 32) : leNat (u32le n) = n := by
  simp only [leNat, u32le]
  omega

theorem length_u32le (n : Nat) : (u32le n).length = 4 := rfl

theorem length_tagBytes (s : String) : (tagBytes s).length = s.length := by
  rw [tagBytes, List.length_map]
  rfl

theorem asciiDecode_tagBytes (s : String) (h : ∀ c ∈ s.toList, c.toNat < 128) :
    asciiDecode (tagBytes s) = .ok s := by
  unfold asciiDecode tagBytes
  rw [if_pos]
  · congr 1
    rw [List.map_map]
    have hid : ∀ c ∈ s.toList, (Char.ofNat ∘ Char.toNat) c = id c := by
      intro c _
      simp [Char.ofNat_toNat]
    rw [List.map_congr_left hid, List.map_id]
    cases s
    rfl
  · rw [List.all_eq_true]
    intro b hb
    rw [List.mem_map] at hb
    obtain ⟨c, hc, rfl⟩ := hb
    simpa using h c hc

theorem drop_at {α : Type} (front rest : List α) (n : Nat) (h : front.length = n) :
    (front ++ rest).drop n = rest := by
  subst h
  exact List.drop_left front rest

theorem readBytes_exact (data l rest : List Nat) (pos : Nat)
    (hdrop : data.drop pos = l ++ rest) (hpos : pos ≤ data.length) :
    readBytes data pos l.length = .ok l := by
  have hlen : (data.drop pos).length = data.length - pos := List.length_drop pos data
  rw [hdrop] at hlen
  simp at hlen
  unfold readBytes
  rw [if_pos (by omega)]
  rw [hdrop, List.take_left]

theorem read_u32_exact (data rest : List Nat) (pos n : Nat)
    (hdrop : data.drop pos = u32le n ++ rest) (hpos : pos ≤ data.length)
    (h32 : n < 2 ^ 32) : read_u32 data pos = .ok n := by
  unfold read_u32
  rw [show (4 : Nat) = (u32le n).length from rfl,
    readBytes_exact data (u32le n) rest pos hdrop hpos]
  dsimp
  rw [leNat_u32le n h32]

theorem read_str_exact (data rest : List Nat) (pos : Nat) (s : String)
    (hdrop : data.drop pos = tagBytes s ++ rest) (hpos : pos ≤ data.length)
    (hascii : ∀ c ∈ s.toList, c.toNat < 128) (hlen4 : s.length = 4) :
    read_str data pos 4 = .ok s := by
  unfold read_str
  rw [show (4 : Nat) = (tagBytes s).length by rw [length_tagBytes, hlen4],
    readBytes_exact data (tagBytes s) rest pos hdrop hpos]
  exact asciiDecode_tagBytes s hascii

theorem chunksSize_ge_length (cs : List (String × List Nat)) :
    cs.length ≤ chunksSize cs := by
  induction cs with
  | nil => simp [chunksSize]
  | cons c rest ih =>
    simp [chunksSize] at ih ⊢
    omega

theorem glb_chunks_loop_mk :
    ∀ (cs : List (String × List Nat)) (front : List Nat) (fuel : Nat)
      (js : Option String) (body : Option (List Nat)),
    (∀ c ∈ cs, tagOk c.1) → (∀ c ∈ cs, c.2.length < 2 ^ 32) →
    cs.length ≤ fuel →
    glb_chunks_loop (front ++ chunksBytes cs) fuel front.length ((chunksSize cs : Int)) js body
      = processChunks cs js body := by
  intro cs
  induction cs with
  | nil =>
    intro front fuel js body _ _ _
    cases fuel <;> simp [glb_chunks_loop, processChunks, chunksSize]
  | cons c cs' ih =>
    intro front fuel js body htags hlens hfuel
    obtain ⟨tag, payload⟩ := c
    have htag := htags (tag, payload) (by simp)
    have hlen := hlens (tag, payload) (by simp)
    obtain ⟨htlen, htascii⟩ := htag
    cases fuel with
    | zero => simp at hfuel
    | succ f =>
      have hcsz : chunksSize ((tag, payload) :: cs') = 8 + payload.length + chunksSize cs' := by
        simp [chunksSize]
      have hsize : ¬((chunksSize ((tag, payload) :: cs') : Int) ≤ 0) := by
        rw [hcsz]
        push_cast
        omega
      have htb4 : (tagBytes tag).length = 4 := by rw [length_tagBytes, htlen]
      have hdata' : front ++ chunksBytes ((tag, payload) :: cs') =
          (front ++ chunkBytes (tag, payload)) ++ chunksBytes cs' := by
        simp [chunksBytes, List.append_assoc]
      have hone : (chunkBytes (tag, payload)).length = 8 + payload.length := by
        rw [chunkBytes, List.length_append, List.length_append, length_u32le, htb4]
      have hcons : chunksBytes ((tag, payload) :: cs') = chunkBytes (tag, payload) ++ chunksBytes cs' := by
        simp [chunksBytes]
      have hcb : (chunksBytes ((tag, payload) :: cs')).length
          = 8 + payload.length + (chunksBytes cs').length := by
        rw [hcons, List.length_append, hone]
      have hdlen : (front ++ chunksBytes ((tag, payload) :: cs')).length
          = front.length + (8 + payload.length + (chunksBytes cs').length) := by
        rw [List.length_append, hcb]
      have hread1 : read_u32 (front ++ chunksBytes ((tag, payload) :: cs')) front.length
          = .ok payload.length := by
        apply read_u32_exact _ (tagBytes tag ++ (payload ++ chunksBytes cs')) _ _ _ (by simp) hlen
        rw [show front ++ chunksBytes ((tag, payload) :: cs') =
            front ++ (u32le payload.length ++ (tagBytes tag ++ (payload ++ chunksBytes cs')))
          by simp [chunksBytes, chunkBytes, List.append_assoc]]
        exact drop_at front _ front.length rfl
      have hread2 : read_str (front ++ chunksBytes ((tag, payload) :: cs')) (front.length + 4) 4
          = .ok tag := by
        apply read_str_exact _ (payload ++ chunksBytes cs') _ _ ?_ ?_ htascii htlen
        · rw [show front ++ chunksBytes ((tag, payload) :: cs') =
              (front ++ u32le payload.length) ++ (tagBytes tag ++ (payload ++ chunksBytes cs'))
            by simp [chunksBytes, chunkBytes, List.append_assoc]]
          exact drop_at (front ++ u32le payload.length) _ (front.length + 4)
            (by rw [List.length_append, length_u32le])
        · rw [hdlen]
          omega
      have hread3 : readBytes (front ++ chunksBytes ((tag, payload) :: cs')) (front.length + 8) payload.length
          = .ok payload := by
        apply readBytes_exact _ _ (chunksBytes cs') _ ?_ ?_
        · rw [show front ++ chunksBytes ((tag, payload) :: cs') =
              (front ++ u32le payload.length ++ tagBytes tag) ++ (payload ++ chunksBytes cs')
            by simp [chunksBytes, chunkBytes, List.append_assoc]]
          exact drop_at (front ++ u32le payload.length ++ tagBytes tag) _ (front.length + 8)
            (by rw [List.length_append, List.length_append, length_u32le, htb4])
        · rw [hdlen]
          omega
      have harith : (chunksSize ((tag, payload) :: cs') : Int) - 4 - 4 - (payload.length : Int)
          = (chunksSize cs' : Int) := by
        rw [hcsz]
        push_cast
        ring
      have hpos' : front.length + 8 + payload.length = (front ++ chunkBytes (tag, payload)).length := by
        rw [List.length_append, hone]
        omega
      simp only [glb_chunks_loop]
      rw [if_neg hsize]
      by_cases hdup : (js.isSome && body.isSome) = true
      · rw [if_pos hdup]
        simp only [processChunks]
        rw [if_pos hdup]
      · rw [if_neg hdup]
        rw [hread1]
        dsimp only
        rw [hread2]
        dsimp only
        rw [hread3]
        dsimp only
        simp only [processChunks]
        rw [if_neg hdup]
        have htags' : ∀ c ∈ cs', tagOk c.1 := fun c hc => htags c (by simp [hc])
        have hlens' : ∀ c ∈ cs', c.2.length < 2 ^ 32 := fun c hc => hlens c (by simp [hc])
        have hfuel' : cs'.length ≤ f := by simp at hfuel; omega
        by_cases hbin : tag = "BIN\x00"
        · rw [if_pos hbin, if_pos hbin, harith, hpos', hdata']
          exact ih (front ++ chunkBytes (tag, payload)) f js (some payload) htags' hlens' hfuel'
        · rw [if_neg hbin, if_neg hbin]
          by_cases hjson : tag = "JSON"
          · rw [if_pos hjson, if_pos hjson]
            cases hasc : asciiDecode payload with
            | error e => rfl
            | ok s =>
              rw [harith, hpos', hdata']
              exact ih (front ++ chunkBytes (tag, payload)) f (some s) body htags' hlens' hfuel'
          · rw [if_neg hjson, if_neg hjson]

theorem parse_glb_mkGlb (jloads : String → Option JValue) (cs : List (String × List Nat))
    (htags : ∀ c ∈ cs, tagOk c.1) (hlens : ∀ c ∈ cs, c.2.length < 2 ^ 32)
    (htotal : 12 + chunksSize cs < 2 ^ 32) :
    parse_glb jloads (mkGlb cs) =
      match processChunks cs none none with
      | .error e => .error e
      | .ok (js, body) => glbFinish jloads js body := by
  have htbg : (tagBytes "glTF").length = 4 := by decide
  have hmklen : (mkGlb cs).length = 12 + (chunksBytes cs).length := by
    simp [mkGlb, htbg, length_u32le]
    omega
  have hmagic : read_str (mkGlb cs) 0 4 = .ok "glTF" := by
    apply read_str_exact _ (u32le 2 ++ (u32le (12 + chunksSize cs) ++ chunksBytes cs)) _ _ ?_
      (by omega) (by decide) (by decide)
    rw [show mkGlb cs = tagBytes "glTF" ++ (u32le 2 ++ (u32le (12 + chunksSize cs) ++ chunksBytes cs))
      by simp [mkGlb, List.append_assoc], List.drop_zero]
  have hver : read_u32 (mkGlb cs) 4 = .ok 2 := by
    apply read_u32_exact _ (u32le (12 + chunksSize cs) ++ chunksBytes cs) _ _ ?_ ?_ (by norm_num)
    · rw [show mkGlb cs = tagBytes "glTF" ++ (u32le 2 ++ (u32le (12 + chunksSize cs) ++ chunksBytes cs))
        by simp [mkGlb, List.append_assoc]]
      exact drop_at (tagBytes "glTF") _ 4 htbg
    · omega
  have hsz : read_u32 (mkGlb cs) 8 = .ok (12 + chunksSize cs) := by
    apply read_u32_exact _ (chunksBytes cs) _ _ ?_ ?_ htotal
    · rw [show mkGlb cs = (tagBytes "glTF" ++ u32le 2) ++ (u32le (12 + chunksSize cs) ++ chunksBytes cs)
        by simp [mkGlb, List.append_assoc]]
      exact drop_at (tagBytes "glTF" ++ u32le 2) _ 8
        (by rw [List.length_append, htbg, length_u32le])
    · omega
  have hint : ((12 + chunksSize cs : Nat) : Int) - 12 = (chunksSize cs : Int) := by
    push_cast
    ring
  have hloop : glb_chunks_loop (mkGlb cs) (chunksSize cs) 12 ((chunksSize cs : Int)) none none
      = processChunks cs none none := by
    have h12 : (12 : Nat) = (tagBytes "glTF" ++ u32le 2 ++ u32le (12 + chunksSize cs)).length := by
      rw [List.length_append, List.length_append, htbg, length_u32le, length_u32le]
    rw [show mkGlb cs = (tagBytes "glTF" ++ u32le 2 ++ u32le (12 + chunksSize cs)) ++ chunksBytes cs
      by simp [mkGlb, List.append_assoc], h12]
    exact glb_chunks_loop_mk cs _ (chunksSize cs) none none htags hlens (chunksSize_ge_length cs)
  unfold parse_glb
  rw [hmagic]
  dsimp only
  rw [if_neg (by simp)]
  rw [hver]
  dsimp only
  rw [if_neg (by norm_num)]
  rw [hsz]
  dsimp only
  rw [hint]
  rw [show ((chunksSize cs : Int)).toNat = chunksSize cs from Int.toNat_natCast _]
  rw [hloop]
  cases hpc : processChunks cs none none with
  | error e => rfl
  | ok r =>
    obtain ⟨jsr, bodyr⟩ := r
    rfl

/-- Counterexample to C2 as stated: a container holding two JSON chunks
(and no binary chunk) does not fail; parse_glb accepts it, the second
JSON chunk winning. -/
theorem parse_glb_two_json_chunks_accepted :
    parse_glb jloadsStub (mkGlb [("JSON", [123, 125]), ("JSON", [123, 125])]) =
      .ok (.obj [], []) := by
  rfl

/-- C2 amended: parse_glb rejects no chunk merely for being a duplicate;
the fatal multiple-chunks error fires only when a further chunk follows
after both a JSON and a binary chunk have been stored, a repeated JSON or
binary chunk otherwise simply overwrites the earlier one, and a container
with exactly one JSON chunk and zero binary chunks succeeds and returns an
empty binary payload. -/
theorem parse_glb_duplicate_chunk_rules (jloads : String → Option JValue) :
    (∀ p s kvs, asciiDecode p = .ok s → s ≠ "" → jloads s = some (.obj kvs) →
      12 + chunksSize [("JSON", p)] < 2 ^ 32 →
      parse_glb jloads (mkGlb [("JSON", p)]) = .ok (.obj kvs, [])) ∧
    (∀ p q s t kvs, asciiDecode q = .ok t → asciiDecode p = .ok s → s ≠ "" →
      jloads s = some (.obj kvs) → 12 + chunksSize [("JSON", q), ("JSON", p)] < 2 ^ 32 →
      parse_glb jloads (mkGlb [("JSON", q), ("JSON", p)]) = .ok (.obj kvs, [])) ∧
    (∀ q t b c, asciiDecode q = .ok t → tagOk c.1 →
      12 + chunksSize [("JSON", q), ("BIN\x00", b), c] < 2 ^ 32 →
      parse_glb jloads (mkGlb [("JSON", q), ("BIN\x00", b), c]) =
        .error "This VRM has multiple chunks, this plugin reads one chunk only.") ∧
    (∀ b1 b2 p s kvs, asciiDecode p = .ok s → s ≠ "" → jloads s = some (.obj kvs) →
      12 + chunksSize [("BIN\x00", b1), ("BIN\x00", b2), ("JSON", p)] < 2 ^ 32 →
      parse_glb jloads (mkGlb [("BIN\x00", b1), ("BIN\x00", b2), ("JSON", p)]) =
        .ok (.obj kvs, bodyOrEmpty (some b2))) := by
  have hjsonTag : tagOk "JSON" := ⟨by decide, by decide⟩
  have hbinTag : tagOk "BIN\x00" := ⟨by decide, by decide⟩
  refine ⟨?_, ?_, ?_, ?_⟩
  · intro p s kvs hp hs hj htot
    rw [parse_glb_mkGlb jloads [("JSON", p)]
      (by intro c hc; simp at hc; subst hc; exact hjsonTag)
      (by intro c hc; simp at hc; subst hc; simp [chunksSize] at htot ⊢; omega) htot]
    simp [processChunks, glbFinish, hp, hs, hj, bodyOrEmpty]
  · intro p q s t kvs hq hp hs hj htot
    rw [parse_glb_mkGlb jloads [("JSON", q), ("JSON", p)]
      (by intro c hc; simp at hc; rcases hc with h | h <;> subst h <;> exact hjsonTag)
      (by intro c hc; simp at hc; rcases hc with h | h <;> subst h <;>
        simp [chunksSize] at htot ⊢ <;> omega)
      htot]
    simp [processChunks, glbFinish, hq, hp, hs, hj, bodyOrEmpty]
  · intro q t b c hq htagc htot
    rw [parse_glb_mkGlb jloads [("JSON", q), ("BIN\x00", b), c]
      (by intro d hd; simp at hd; rcases hd with h | h | h
          · subst h; exact hjsonTag
          · subst h; exact hbinTag
          · subst h; exact htagc)
      (by intro d hd; simp at hd; rcases hd with h | h | h <;> subst h <;>
        simp [chunksSize] at htot ⊢ <;> omega)
      htot]
    simp [processChunks, hq]
  · intro b1 b2 p s kvs hp hs hj htot
    rw [parse_glb_mkGlb jloads [("BIN\x00", b1), ("BIN\x00", b2), ("JSON", p)]
      (by intro d hd; simp at hd; rcases hd with h | h | h
          · subst h; exact hbinTag
          · subst h; exact hbinTag
          · subst h; exact hjsonTag)
      (by intro d hd; simp at hd; rcases hd with h | h | h <;> subst h <;>
        simp [chunksSize] at htot ⊢ <;> omega)
      htot]
    simp [processChunks, glbFinish, hp, hs, hj]

/-- Witness for the amended C2 at concrete inputs: a single-JSON-chunk
container with payload bytes of an empty JSON object succeeds with an
empty binary payload. -/
theorem parse_glb_duplicate_chunk_rules_witness :
    parse_glb jloadsStub (mkGlb [("JSON", [123, 125])]) = .ok (.obj [], []) := by
  exact (parse_glb_duplicate_chunk_rules jloadsStub).1 [123, 125] "\x7b\x7d" []
    (by rfl) (by decide) (by rfl) (by decide)

/-- C10: the mandatory-JSON check of parse_glb tests non-emptiness of the
decoded JSON text, not presence of the chunk: a container whose single
JSON chunk has length zero fails with the very same fatal
"failed to read json chunk" error as containers with no JSON chunk at
all. -/
theorem parse_glb_empty_json_chunk (jloads : String → Option JValue) :
    (parse_glb jloads (mkGlb [("JSON", [])]) = .error "failed to read json chunk") ∧
    (∀ b, 12 + chunksSize [("BIN\x00", b), ("JSON", [])] < 2 ^ 32 →
      parse_glb jloads (mkGlb [("BIN\x00", b), ("JSON", [])]) = .error "failed to read json chunk") ∧
    (∀ b, 12 + chunksSize [("JSON", []), ("BIN\x00", b)] < 2 ^ 32 →
      parse_glb jloads (mkGlb [("JSON", []), ("BIN\x00", b)]) = .error "failed to read json chunk") ∧
    (∀ b, 12 + chunksSize [("BIN\x00", b)] < 2 ^ 32 →
      parse_glb jloads (mkGlb [("BIN\x00", b)]) = .error "failed to read json chunk") ∧
    (parse_glb jloads (mkGlb []) = .error "failed to read json chunk") := by
  have hjsonTag : tagOk "JSON" := ⟨by decide, by decide⟩
  have hbinTag : tagOk "BIN\x00" := ⟨by decide, by decide⟩
  refine ⟨by rfl, ?_, ?_, ?_, by rfl⟩
  · intro b htot
    rw [parse_glb_mkGlb jloads [("BIN\x00", b), ("JSON", [])]
      (by intro d hd; simp at hd; rcases hd with h | h
          · subst h; exact hbinTag
          · subst h; exact hjsonTag)
      (by intro d hd; simp at hd; rcases hd with h | h <;> subst h <;>
        simp [chunksSize] at htot ⊢ <;> omega)
      htot]
    simp [processChunks, glbFinish, asciiDecode]
  · intro b htot
    rw [parse_glb_mkGlb jloads [("JSON", []), ("BIN\x00", b)]
      (by intro d hd; simp at hd; rcases hd with h | h
          · subst h; exact hjsonTag
          · subst h; exact hbinTag)
      (by intro d hd; simp at hd; rcases hd with h | h <;> subst h <;>
        simp [chunksSize] at htot ⊢ <;> omega)
      htot]
    simp [processChunks, glbFinish, asciiDecode]
  · intro b htot
    rw [parse_glb_mkGlb jloads [("BIN\x00", b)]
      (by intro d hd; simp at hd; subst hd; exact hbinTag)
      (by intro d hd; simp at hd; subst hd; simp [chunksSize] at htot ⊢; omega)
      htot]
    simp [processChunks, glbFinish]

/-- Witness for C10 at a concrete input: a container with a one-byte
binary chunk and an empty JSON chunk fails with the mandatory-JSON
error. -/
theorem parse_glb_empty_json_chunk_witness :
    parse_glb jloadsStub (mkGlb [("BIN\x00", [7]), ("JSON", [])]) =
      .error "failed to read json chunk" := by
  exact (parse_glb_empty_json_chunk jloadsStub).2.1 [7] (by decide)

theorem validate_vroid_append (url : UrlParts) (qd : List (String × String)) (jk : String)
    (props : List LCProp) :
    validate_vroid_hub_license_url url qd jk props =
      ((validate_vroid_hub_license_url url qd jk []).1,
        props ++ (validate_vroid_hub_license_url url qd jk []).2) := by
  unfold validate_vroid_hub_license_url
  split_ifs <;> simp

theorem validate_uni_append (url : UrlParts) (qd : List (String × String)) (jk : String)
    (props : List LCProp) :
    validate_uni_virtual_license_url url qd jk props =
      ((validate_uni_virtual_license_url url qd jk []).1,
        props ++ (validate_uni_virtual_license_url url qd jk []).2) := by
  unfold validate_uni_virtual_license_url
  split_ifs <;> simp

theorem validate_license_url_append (u jk : String) (props : List LCProp) :
    validate_license_url u jk props = props ++ validate_license_url u jk [] := by
  unfold validate_license_url
  by_cases h : u = ""
  · rw [if_pos h, if_pos h]
    simp
  · rw [if_neg h, if_neg h]
    cases hu : urlparse_model u with
    | none => dsimp
    | some url =>
      dsimp only
      rcases hX : validate_vroid_hub_license_url url (parse_qsl_model url.query) jk [] with ⟨b1, l1⟩
      have hv := validate_vroid_append url (parse_qsl_model url.query) jk props
      rw [hX] at hv
      dsimp at hv
      rw [hv]
      cases b1 with
      | true => dsimp
      | false =>
        dsimp only
        rcases hY : validate_uni_virtual_license_url url (parse_qsl_model url.query) jk [] with ⟨b2, l2⟩
        have hu1 := validate_uni_append url (parse_qsl_model url.query) jk (props ++ l1)
        have hu2 := validate_uni_append url (parse_qsl_model url.query) jk l1
        rw [hY] at hu1 hu2
        dsimp at hu1 hu2
        rw [hu1, hu2]
        cases b2 <;> simp

/-- Counterexample to C3 as stated: the license-name pattern is matched
case-sensitively, so a lowercase "cc-by-nd" produces no confirmation item
at all and validate_license returns normally. -/
theorem validate_license_lowercase_ccnd_not_flagged :
    validate_license (metaDoc "cc-by-nd" "" "") = .ok () := by rfl

/-- C3 amended: the license-name check of validate_license appends exactly
one confirmation item (with no URL) when the licenseName field matches
CC(.x)ND(.x) case-sensitively, that is, when it starts with the literal
"CC" and contains "ND" later (before any newline), and appends nothing
otherwise; "CC-BY-ND" matches while "cc-by-nd" does not. -/
theorem validate_license_ccnd_case_sensitive (name : String) (hname : name ≠ "Other") :
    (ccnd_match name = true →
      validate_license_props (metaDoc name "" "") = [ccnd_prop name] ∧ (ccnd_prop name).url = none) ∧
    (ccnd_match name = false → validate_license_props (metaDoc name "" "") = []) ∧
    ccnd_match name =
      (startsList "CC".toList name.toList &&
        hasInfix "ND".toList ((name.toList.drop 2).takeWhile (fun c => c ≠ '\n'))) ∧
    ccnd_match "CC-BY-ND" = true ∧ ccnd_match "cc-by-nd" = false := by
  have hg1 : pyStr (json_get (metaDoc name "" "") ["extensions", "VRM", "meta", "licenseName"] (.str "")) = name := rfl
  have hg2 : pyStr (json_get (metaDoc name "" "") ["extensions", "VRM", "meta", "otherPermissionUrl"] (.str "")) = "" := rfl
  have hbase : validate_license_props (metaDoc name "" "") = license_name_check name := by
    simp only [validate_license_props]
    rw [hg1, hg2]
    simp [validate_license_url, hname]
  refine ⟨?_, ?_, rfl, by decide, by decide⟩
  · intro h
    rw [hbase, license_name_check, if_pos h]
    exact ⟨rfl, rfl⟩
  · intro h
    rw [hbase, license_name_check, if_neg (by simp [h])]

/-- Witness for the amended C3 at a concrete input: licenseName
"CC-BY-ND" yields exactly the one no-URL item. -/
theorem validate_license_ccnd_case_sensitive_witness :
    validate_license_props (metaDoc "CC-BY-ND" "" "") = [ccnd_prop "CC-BY-ND"] := by
  exact ((validate_license_ccnd_case_sensitive "CC-BY-ND" (by decide)).1 (by decide)).1

/-- C4: validate_license accumulates the ordered findings of its three
checks (license-name, otherPermissionUrl, "Other" license) into one list,
raises the LicenseConfirmationRequired condition exactly once, after all
checks, if and only if that list is non-empty, carrying the whole ordered
list, and returns normally when no item was aggregated. -/
theorem validate_license_raises_iff (json : JValue) (ln purl ourl : String)
    (h1 : pyStr (json_get json ["extensions", "VRM", "meta", "licenseName"] (.str "")) = ln)
    (h2 : pyStr (json_get json ["extensions", "VRM", "meta", "otherPermissionUrl"] (.str "")) = purl)
    (h3 : pyStr (json_get json ["extensions", "VRM", "meta", "otherLicenseUrl"] (.str "")) = ourl) :
    validate_license_props json =
      license_name_check ln ++ validate_license_url purl "otherPermissionUrl" [] ++
        (if ln = "Other" then
          (if ourl = "" then [other_license_missing_url_prop]
           else validate_license_url ourl "otherLicenseUrl" [])
         else []) ∧
    (validate_license_props json = [] → validate_license json = .ok ()) ∧
    (validate_license_props json ≠ [] → validate_license json = .error (validate_license_props json)) := by
  refine ⟨?_, ?_, ?_⟩
  · simp only [validate_license_props]
    rw [h1, h2, h3]
    rw [validate_license_url_append purl "otherPermissionUrl" (license_name_check ln)]
    by_cases hln : ln = "Other"
    · rw [if_pos hln, if_pos hln]
      by_cases ho : ourl = ""
      · rw [if_pos ho, if_pos ho, List.append_assoc]
      · rw [if_neg ho, if_neg ho,
          validate_license_url_append ourl "otherLicenseUrl"
            (license_name_check ln ++ validate_license_url purl "otherPermissionUrl" [])]
    · rw [if_neg hln, if_neg hln, List.append_nil]
  · intro h
    unfold validate_license
    rw [h]
  · intro h
    unfold validate_license
    cases hprops : validate_license_props json with
    | nil => exact absurd hprops h
    | cons a l => rfl

/-- Witness for C4 at a concrete input: a no-derivatives license name
makes validate_license raise with the whole aggregated list. -/
theorem validate_license_raises_iff_witness :
    validate_license (metaDoc "CC-BY-ND" "" "") =
      .error (validate_license_props (metaDoc "CC-BY-ND" "" "")) := by
  exact (validate_license_raises_iff (metaDoc "CC-BY-ND" "" "") "CC-BY-ND" "" ""
    rfl rfl rfl).2.2 (by decide)

/-- C5: for a permission URL whose hostname is hub.vroid.com and whose
path ends with /license, validate_license_url appends exactly one
confirmation item when the modification query parameter is "disallow" and
none for any other value (including absent); in either case the provider
claims the URL, so no further provider check and no generic
custom-license item is produced. -/
theorem vroid_hub_url_check (url_str jk : String) (props : List LCProp) (u : UrlParts)
    (hparse : urlparse_model url_str = some u)
    (hne : url_str ≠ "")
    (hhost : u.hostname = some "hub.vroid.com")
    (hpath : endsList "/license".toList u.path.toList = true) :
    validate_license_url url_str jk props =
      props ++ (if qdict_get (parse_qsl_model u.query) "modification" = some "disallow"
                then [vroid_prop u jk] else []) := by
  have hcond : ¬(u.hostname ≠ some "hub.vroid.com" ∨
      endsList "/license".toList u.path.toList = false) := by
    rw [hhost, hpath]
    simp
  unfold validate_license_url
  rw [if_neg hne, hparse]
  dsimp only
  unfold validate_vroid_hub_license_url
  rw [if_neg hcond]
  by_cases hq : qdict_get (parse_qsl_model u.query) "modification" = some "disallow"
  · rw [if_pos hq, if_pos hq]
  · rw [if_neg hq, if_neg hq]
    simp

/-- Witness for C5 at concrete inputs: modification=disallow yields the
one item, modification=allow yields none. -/
theorem vroid_hub_url_check_witness :
    validate_license_url "https://hub.vroid.com/en/license?modification=disallow" "otherPermissionUrl" [] =
      [vroid_prop ⟨"https://hub.vroid.com/en/license?modification=disallow", "https",
        "hub.vroid.com", "/en/license", "modification=disallow", ""⟩ "otherPermissionUrl"] ∧
    validate_license_url "https://hub.vroid.com/en/license?modification=allow" "otherPermissionUrl" [] = [] := by
  constructor
  · rw [vroid_hub_url_check "https://hub.vroid.com/en/license?modification=disallow" "otherPermissionUrl" []
      ⟨"https://hub.vroid.com/en/license?modification=disallow", "https",
        "hub.vroid.com", "/en/license", "modification=disallow", ""⟩
      (by rfl) (by decide) (by rfl) (by rfl)]
    rw [if_pos (by rfl)]
    rfl
  · rw [vroid_hub_url_check "https://hub.vroid.com/en/license?modification=allow" "otherPermissionUrl" []
      ⟨"https://hub.vroid.com/en/license?modification=allow", "https",
        "hub.vroid.com", "/en/license", "modification=allow", ""⟩
      (by rfl) (by decide) (by rfl) (by rfl)]
    rw [if_neg (by decide)]
    rfl

/-- C6: when the licenseName field equals exactly "Other",
validate_license appends the item demanding a URL if otherLicenseUrl is
empty, and otherwise runs the same URL-validation procedure
(validate_license_url, with providers and generic fallback) on
otherLicenseUrl that is run on otherPermissionUrl; any other licenseName
contributes nothing from this check. -/
theorem other_license_url_check (json : JValue) (ln purl ourl : String)
    (h1 : pyStr (json_get json ["extensions", "VRM", "meta", "licenseName"] (.str "")) = ln)
    (h2 : pyStr (json_get json ["extensions", "VRM", "meta", "otherPermissionUrl"] (.str "")) = purl)
    (h3 : pyStr (json_get json ["extensions", "VRM", "meta", "otherLicenseUrl"] (.str "")) = ourl) :
    (ln = "Other" → ourl = "" →
      validate_license_props json =
        (license_name_check ln ++ validate_license_url purl "otherPermissionUrl" []) ++
          [other_license_missing_url_prop] ∧ other_license_missing_url_prop.url = none) ∧
    (ln = "Other" → ourl ≠ "" →
      validate_license_props json =
        (license_name_check ln ++ validate_license_url purl "otherPermissionUrl" []) ++
          validate_license_url ourl "otherLicenseUrl" []) ∧
    (ln ≠ "Other" →
      validate_license_props json =
        license_name_check ln ++ validate_license_url purl "otherPermissionUrl" []) := by
  have hbase : validate_license_props json =
      (if ln = "Other" then
        (if ourl = "" then
          (license_name_check ln ++ validate_license_url purl "otherPermissionUrl" []) ++
            [other_license_missing_url_prop]
         else validate_license_url ourl "otherLicenseUrl"
            (license_name_check ln ++ validate_license_url purl "otherPermissionUrl" []))
       else license_name_check ln ++ validate_license_url purl "otherPermissionUrl" []) := by
    simp only [validate_license_props]
    rw [h1, h2, h3]
    rw [validate_license_url_append purl "otherPermissionUrl" (license_name_check ln)]
  refine ⟨?_, ?_, ?_⟩
  · intro hln ho
    rw [hbase, if_pos hln, if_pos ho]
    exact ⟨rfl, rfl⟩
  · intro hln ho
    rw [hbase, if_pos hln, if_neg ho]
    exact validate_license_url_append ourl "otherLicenseUrl" _
  · intro hln
    rw [hbase, if_neg hln]

/-- Witness for C6 at a concrete input: license name "Other" with empty
otherLicenseUrl yields the item demanding a URL. -/
theorem other_license_url_check_witness :
    validate_license_props (metaDoc "Other" "" "") =
      (license_name_check "Other" ++ validate_license_url "" "otherPermissionUrl" []) ++
        [other_license_missing_url_prop] := by
  exact ((other_license_url_check (metaDoc "Other" "" "") "Other" "" "" rfl rfl rfl).1 rfl rfl).1

theorem lookup_setAttr_ne (attrs : List (String × List (List Rat))) (k k' : String)
    (v : List (List Rat)) (h : k' ≠ k) :
    List.lookup k' (setAttr attrs k v) = List.lookup k' attrs := by
  induction attrs with
  | nil => rfl
  | cons p rest ih =>
    obtain ⟨pk, pv⟩ := p
    simp only [setAttr, List.map] at ih ⊢
    by_cases hp : pk = k
    · subst hp
      rw [if_pos rfl]
      have hb : (k' == pk) = false := by simp [h]
      simp only [List.lookup, hb]
      exact ih
    · rw [if_neg hp]
      by_cases hk : k' = pk
      · subst hk
        simp [List.lookup]
      · have hb : (k' == pk) = false := by simp [hk]
        simp only [List.lookup, hb]
        exact ih

theorem lookup_setAttr_eq (attrs : List (String × List (List Rat))) (k : String)
    (v t : List (List Rat)) (h : List.lookup k attrs = some t) :
    List.lookup k (setAttr attrs k v) = some v := by
  induction attrs with
  | nil => simp [List.lookup] at h
  | cons p rest ih =>
    obtain ⟨pk, pv⟩ := p
    simp only [setAttr, List.map] at ih ⊢
    by_cases hp : pk = k
    · subst hp
      rw [if_pos rfl]
      simp [List.lookup]
    · rw [if_neg hp]
      have hb : (k == pk) = false := by
        simp only [beq_eq_false_iff_ne]
        exact fun hh => hp hh.symm
      simp only [List.lookup, hb] at h ⊢
      exact ih h

theorem texfix_loop_nonlegacy : ∀ (fuel : Nat) (attrs : List (String × List (List Rat))) (n : Nat),
    texfix_loop false fuel attrs n = some attrs := by
  intro fuel
  induction fuel with
  | zero => intro attrs n; rfl
  | succ f ih =>
    intro attrs n
    simp only [texfix_loop]
    cases List.lookup (texcoordName n) attrs with
    | none => rfl
    | some t =>
      dsimp only
      rw [if_neg (by simp)]
      exact ih attrs (n + 1)

theorem texfix_loop_legacy_run :
    ∀ (fuel k n : Nat) (attrs : List (String × List (List Rat))),
    n ≤ k → k + 1 ≤ fuel + n →
    (∀ i, n ≤ i → i < k → ∃ t t2, List.lookup (texcoordName i) attrs = some t ∧
      t.mapM fix_uv = some t2) →
    List.lookup (texcoordName k) attrs = none →
    (∀ i, i < k + 1 → ∀ j, j < k + 1 → i ≠ j → texcoordName i ≠ texcoordName j) →
    ∃ attrs2, texfix_loop true fuel attrs n = some attrs2 ∧
      (∀ i, n ≤ i → i < k → ∃ t t2, List.lookup (texcoordName i) attrs = some t ∧
        t.mapM fix_uv = some t2 ∧ List.lookup (texcoordName i) attrs2 = some t2) ∧
      (∀ name, (∀ i, n ≤ i → i < k → name ≠ texcoordName i) →
        List.lookup name attrs2 = List.lookup name attrs) := by
  intro fuel
  induction fuel with
  | zero =>
    intro k n attrs hnk hfuel _ _ _
    omega
  | succ f ih =>
    intro k n attrs hnk hfuel hfix hstop hdist
    by_cases hnkeq : n = k
    · subst hnkeq
      refine ⟨attrs, ?_, ?_, ?_⟩
      · simp only [texfix_loop, hstop]
      · intro i hni hik
        omega
      · intro name _
        rfl
    · have hnlt : n < k := by omega
      obtain ⟨t, t2, hlook, hmap⟩ := hfix n le_rfl hnlt
      have hstep : texfix_loop true (f + 1) attrs n =
          texfix_loop true f (setAttr attrs (texcoordName n) t2) (n + 1) := by
        dsimp only [texfix_loop]
        rw [hlook]
        dsimp only
        rw [hmap]
        rfl
      have hne_k : texcoordName k ≠ texcoordName n :=
        hdist k (by omega) n (by omega) (by omega)
      have hfix' : ∀ i, n + 1 ≤ i → i < k →
          ∃ s s2, List.lookup (texcoordName i) (setAttr attrs (texcoordName n) t2) = some s ∧
            s.mapM fix_uv = some s2 := by
        intro i hi hik
        obtain ⟨ti, ti2, hlooki, hmapi⟩ := hfix i (by omega) hik
        refine ⟨ti, ti2, ?_, hmapi⟩
        rw [lookup_setAttr_ne attrs (texcoordName n) (texcoordName i) t2
          (hdist i (by omega) n (by omega) (by omega))]
        exact hlooki
      have hstop' : List.lookup (texcoordName k) (setAttr attrs (texcoordName n) t2) = none := by
        rw [lookup_setAttr_ne attrs (texcoordName n) (texcoordName k) t2 hne_k]
        exact hstop
      obtain ⟨attrs2, hrun, hfixed, hunch⟩ :=
        ih k (n + 1) (setAttr attrs (texcoordName n) t2) (by omega) (by omega) hfix' hstop' hdist
      refine ⟨attrs2, by rw [hstep, hrun], ?_, ?_⟩
      · intro i hni hik
        by_cases hieq : i = n
        · subst hieq
          refine ⟨t, t2, hlook, hmap, ?_⟩
          rw [hunch (texcoordName i) (fun j hj hjk =>
            hdist i (by omega) j (by omega) (by omega))]
          exact lookup_setAttr_eq attrs (texcoordName i) t2 t hlook
        · obtain ⟨ti, ti2, hlooki, hmapi, hlooki2⟩ := hfixed i (by omega) hik
          refine ⟨ti, ti2, ?_, hmapi, hlooki2⟩
          rw [lookup_setAttr_ne attrs (texcoordName n) (texcoordName i) t2
            (hdist i (by omega) n (by omega) (by omega))] at hlooki
          exact hlooki
      · intro name hname
        rw [hunch name (fun j hj hjk => hname j (by omega) hjk)]
        exact lookup_setAttr_ne attrs (texcoordName n) name t2
          (hname n le_rfl hnlt)

/-- Counterexample to C7 as stated: under a legacy generator the TEXCOORD
loop stops at the first missing index, so the UVs of a TEXCOORD_2
attribute sitting after a gap in the numbering are not rewritten, while
TEXCOORD_0 is. -/
theorem mesh_texcoord_fix_gap :
    mesh_texcoord_fix (genDoc "UniGLTF-1.10")
      [("TEXCOORD_0", [[1/5, -3/10]]), ("TEXCOORD_2", [[1/5, -3/10]])] =
      some [("TEXCOORD_0", [[1/5, 1 + (-3/10)]]), ("TEXCOORD_2", [[1/5, -3/10]])] ∧
    (1 : Rat) + (-3/10) = 7/10 := by
  exact ⟨by rfl, by norm_num⟩

/-- C7 amended: when the document's generator tag starts with UniGLTF and
the float value of its last four characters is below 1.16, mesh_read
rewrites the second component v of every UV to 1 + v in each TEXCOORD_i
attribute of the contiguous run TEXCOORD_0 .. TEXCOORD_(k-1) up to the
first missing index k, leaving every other attribute unchanged (TEXCOORD
attributes after a gap in the numbering are not rewritten, see the
counterexample); when the generator does not match or its version is 1.16
or above, every attribute is left unchanged. -/
theorem mesh_texcoord_fix_legacy (json : JValue) (gen : String)
    (hgen : pyStr (json_get json ["assets", "generator"] (.str "")) = gen) :
    (legacy_uv_flag gen = false → ∀ attrs, mesh_texcoord_fix json attrs = some attrs) ∧
    (legacy_uv_flag gen = true → ∀ attrs k,
      k ≤ attrs.length →
      (∀ i, i < k → ∃ t t2, List.lookup (texcoordName i) attrs = some t ∧
        t.mapM fix_uv = some t2) →
      List.lookup (texcoordName k) attrs = none →
      (∀ i, i < k + 1 → ∀ j, j < k + 1 → i ≠ j → texcoordName i ≠ texcoordName j) →
      ∃ attrs2, mesh_texcoord_fix json attrs = some attrs2 ∧
        (∀ i, i < k → ∃ t t2, List.lookup (texcoordName i) attrs = some t ∧
          t.mapM fix_uv = some t2 ∧ List.lookup (texcoordName i) attrs2 = some t2) ∧
        (∀ name, (∀ i, i < k → name ≠ texcoordName i) →
          List.lookup name attrs2 = List.lookup name attrs)) ∧
    (∀ u v rest, fix_uv (u :: v :: rest) = some (u :: (1 + v) :: rest)) ∧
    legacy_uv_flag "UniGLTF-1.10" = true ∧ legacy_uv_flag "UniGLTF-1.20" = false := by
  refine ⟨?_, ?_, fun u v rest => rfl, by decide, by decide⟩
  · intro hflag attrs
    simp only [mesh_texcoord_fix]
    rw [hgen, hflag]
    exact texfix_loop_nonlegacy (attrs.length + 1) attrs 0
  · intro hflag attrs k hk hfix hstop hdist
    simp only [mesh_texcoord_fix]
    rw [hgen, hflag]
    obtain ⟨attrs2, hrun, hfixed, hunch⟩ :=
      texfix_loop_legacy_run (attrs.length + 1) k 0 attrs (by omega) (by omega)
        (fun i _ hik => hfix i hik) hstop hdist
    exact ⟨attrs2, hrun, fun i hik => hfixed i (by omega) hik,
      fun name hname => hunch name (fun i _ hik => hname i hik)⟩

/-- Witness for the amended C7 at concrete inputs: generator
"UniGLTF-1.10" rewrites the UV [0.2, -0.3] of TEXCOORD_0 to
[0.2, 1 + (-0.3)] = [0.2, 0.7], and generator "UniGLTF-1.20" leaves the
attribute untouched. -/
theorem mesh_texcoord_fix_legacy_witness :
    (∃ attrs2, mesh_texcoord_fix (genDoc "UniGLTF-1.10") [("TEXCOORD_0", [[1/5, -3/10]])] = some attrs2 ∧
      List.lookup (texcoordName 0) attrs2 = some [[1/5, 1 + (-3/10)]]) ∧
    mesh_texcoord_fix (genDoc "UniGLTF-1.20") [("TEXCOORD_0", [[1/5, -3/10]])] =
      some [("TEXCOORD_0", [[1/5, -3/10]])] := by
  constructor
  · obtain ⟨attrs2, hrun, hfixed, _⟩ :=
      (mesh_texcoord_fix_legacy (genDoc "UniGLTF-1.10") "UniGLTF-1.10" rfl).2.1 (by decide)
        [("TEXCOORD_0", [[1/5, -3/10]])] 1 (by decide)
        (by intro i hi
            match i, hi with
            | 0, _ => exact ⟨[[1/5, -3/10]], [[1/5, 1 + (-3/10)]], by rfl, by rfl⟩)
        (by rfl) (by decide)
    obtain ⟨t, t2, hlook, hmap, hlook2⟩ := hfixed 0 (by decide)
    have ht : t = [[1/5, -3/10]] := by
      have := hlook
      rw [show List.lookup (texcoordName 0) [("TEXCOORD_0", [[1/5, -3/10]])] =
        some [[(1 : Rat)/5, -3/10]] from rfl] at this
      exact (Option.some_inj.mp this).symm
    subst ht
    have ht2 : t2 = [[1/5, 1 + (-3/10)]] := by
      rw [show ([[(1 : Rat)/5, -3/10]] : List (List Rat)).mapM fix_uv =
        some [[1/5, 1 + (-3/10)]] from rfl] at hmap
      exact (Option.some_inj.mp hmap).symm
    subst ht2
    exact ⟨attrs2, hrun, hlook2⟩
  · exact (mesh_texcoord_fix_legacy (genDoc "UniGLTF-1.20") "UniGLTF-1.20" rfl).1 (by decide)
      [("TEXCOORD_0", [[1/5, -3/10]])]

/-- Counterexample to C8 as stated: a number-versus-string leaf mismatch
is not a reportable difference; vrm_dict_diff raises the fatal
unexpected-type exception on it. -/
theorem vrm_dict_diff_num_str_fatal :
    vrm_dict_diff 1 (.jint 5) (.str "x") "" 0 =
      .error ("" ++ ": unexpected type left=<class \x27int\x27> right=<class \x27str\x27>") := by
  rfl

/-- C8 amended: vrm_dict_diff dispatches type mismatches on the left
leaf: a left list, dict, bool, or string paired with a right value of a
different kind, and a left null paired with a non-null right, each yield
exactly one path-qualified difference entry; but a left number (int or
float, where Python bools count as numbers) paired with a non-numeric
right is a fatal implementation error rather than a reportable
difference. -/
theorem vrm_dict_diff_type_mismatch (fuel : Nat) (path : String) (tol : Rat) :
    (∀ ls r, isArr r = false →
      vrm_dict_diff (fuel + 1) (.arr ls) r path tol =
        .ok [path ++ ": left is list but right is " ++ pyTypeName r]) ∧
    (∀ lkv r, isObj r = false →
      vrm_dict_diff (fuel + 1) (.obj lkv) r path tol =
        .ok [path ++ ": left is dict but right is " ++ pyTypeName r]) ∧
    (∀ b r, isBool r = false →
      vrm_dict_diff (fuel + 1) (.jbool b) r path tol =
        .ok [path ++ ": left is bool but right is " ++ pyTypeName r]) ∧
    (∀ s r, isStr r = false →
      vrm_dict_diff (fuel + 1) (.str s) r path tol =
        .ok [path ++ ": left is str but right is " ++ pyTypeName r]) ∧
    (∀ r, isNull r = false →
      vrm_dict_diff (fuel + 1) .null r path tol =
        .ok [path ++ ": left is None but right is " ++ pyTypeName r]) ∧
    (∀ n r, pyIsNum r = false →
      vrm_dict_diff (fuel + 1) (.jint n) r path tol =
        .error (path ++ ": unexpected type left=" ++ pyTypeName (.jint n) ++
          " right=" ++ pyTypeName r)) ∧
    (∀ q r, pyIsNum r = false →
      vrm_dict_diff (fuel + 1) (.jfloat q) r path tol =
        .error (path ++ ": unexpected type left=" ++ pyTypeName (.jfloat q) ++
          " right=" ++ pyTypeName r)) := by
  refine ⟨?_, ?_, ?_, ?_, ?_, ?_, ?_⟩
  · intro ls r hr
    cases r <;> first | rfl | simp [isArr] at hr
  · intro lkv r hr
    cases r <;> first | rfl | simp [isObj] at hr
  · intro b r hr
    cases r <;> first | rfl | simp [isBool] at hr
  · intro s r hr
    cases r <;> first | rfl | simp [isStr] at hr
  · intro r hr
    cases r <;> first | rfl | simp [isNull] at hr
  · intro n r hr
    cases r <;> first | rfl | simp [pyIsNum] at hr
  · intro q r hr
    cases r <;> first | rfl | simp [pyIsNum] at hr

/-- Witness for the amended C8 at a concrete input: a list against an int
yields the one path-qualified entry. -/
theorem vrm_dict_diff_type_mismatch_witness :
    vrm_dict_diff 1 (.arr []) (.jint 3) "p" 0 =
      .ok ["p" ++ ": left is list but right is " ++ pyTypeName (.jint 3)] :=
  (vrm_dict_diff_type_mismatch 0 "p" 0).1 [] (.jint 3) rfl

/-- Witness for C9 at a concrete input: a SCALAR accessor without a
bufferView in front of another accessor yields an empty array and the
decode continues. -/
theorem decode_bin_missing_bufferView_witness :
    decode_bin_go [(⟨0⟩ : BufferView)] [7] [⟨"SCALAR", none, 5, 5121⟩, ⟨"SCALAR", some 0, 1, 5121⟩] 0 =
      (decode_bin_go [(⟨0⟩ : BufferView)] [7] [⟨"SCALAR", some 0, 1, 5121⟩] 0).map
        (fun ds => [] :: ds) ∧
    (([[], [AccElem.num 7]] : List (List AccElem)).getD 0 []) = [] := by
  constructor
  · exact (decode_bin_missing_bufferView [⟨0⟩] [7]).1 ⟨"SCALAR", none, 5, 5121⟩
      [⟨"SCALAR", some 0, 1, 5121⟩] 0 1 (by rfl) (by rfl)
  · have h : decode_bin [(⟨0⟩ : BufferView)] [⟨"SCALAR", none, 5, 5121⟩, ⟨"SCALAR", some 0, 1, 5121⟩] [7] =
        .ok [[], [AccElem.num 7]] := by rfl
    exact (decode_bin_missing_bufferView [⟨0⟩] [7]).2
      [⟨"SCALAR", none, 5, 5121⟩, ⟨"SCALAR", some 0, 1, 5121⟩]
      [[], [AccElem.num 7]] 0 h (by decide) (by rfl)

end VrmLoad
